import Mathlib

/-!
Verification of the deployment/release orchestration logic of the
devops-unisatc-a3 repository: the e2e retry helpers
(`tests/e2e/helpers.ts`), the Terraform variable validation and planned
resources (`terraform/variables.tf`, `terraform/ecs.tf`), the ECS
task-address resolver script embedded in `terraform/main.tf`, and the
release-gate configuration (`playwright.config.ts`, `config/middlewares.ts`).

Each TypeScript/HCL/bash construct is embedded as an executable Lean
definition; asynchronous sleeps are recorded as a list of delay values,
HTTP traffic is modelled by a function from the attempt index to the
response the server gives on that attempt, and thrown exceptions become
`Except.error`.
-/

namespace Helpers

/-- Outcome of one invocation of the `fn` callback passed to
`retryWithBackoff`: either it resolves with a value or it throws. -/
inductive FnOutcome (T : Type) where
  | ok (r : T)
  | err (e : String)
deriving Repr, DecidableEq

/-- Trace of one call to `retryWithBackoff`: the returned value or thrown
error, the number of invocations of `fn`, and the sequence of backoff
sleeps (in ms) that were performed. -/
structure RetryTrace (T : Type) where
  result : Except String T
  calls : Nat
  delays : List Nat
deriving Repr

/-- Loop body of `retryWithBackoff` (helpers.ts lines 17-35).  The source
is `for (let attempt = 0; attempt <= maxRetries; attempt++)`; the extra
`remaining` argument is the loop fuel, `maxRetries + 1 - attempt` at every
reachable call.  On a result `r` with `!shouldRetry(r)` the value is
returned; otherwise (retryable result or thrown error) the loop sleeps
`delay` and doubles it when `attempt < maxRetries`, remembering the last
caught error.  Falling off the loop throws
`lastError || new Error('Max retries exceeded')`. -/
def retryWithBackoffGo {T : Type} (fn : Nat → FnOutcome T) (shouldRetry : T → Bool)
    (maxRetries : Nat) : Nat → Nat → Nat → Option String → RetryTrace T
  | _attempt, 0, _delay, lastError =>
      ⟨Except.error (lastError.getD "Max retries exceeded"), 0, []⟩
  | attempt, remaining + 1, delay, lastError =>
      match fn attempt with
      | FnOutcome.ok r =>
          if shouldRetry r then
            let sleeps := if attempt < maxRetries then [delay] else []
            let delay2 := if attempt < maxRetries then delay * 2 else delay
            let t := retryWithBackoffGo fn shouldRetry maxRetries (attempt + 1) remaining delay2 lastError
            ⟨t.result, t.calls + 1, sleeps ++ t.delays⟩
          else
            ⟨Except.ok r, 1, []⟩
      | FnOutcome.err e =>
          let sleeps := if attempt < maxRetries then [delay] else []
          let delay2 := if attempt < maxRetries then delay * 2 else delay
          let t := retryWithBackoffGo fn shouldRetry maxRetries (attempt + 1) remaining delay2 (some e)
          ⟨t.result, t.calls + 1, sleeps ++ t.delays⟩

/-- `retryWithBackoff(fn, maxRetries, initialDelay, shouldRetry)` from
helpers.ts lines 8-38.  The defaults at the call sites are
`maxRetries = 5`, `initialDelay = 500`, `shouldRetry = () => false`. -/
def retryWithBackoff {T : Type} (fn : Nat → FnOutcome T) (maxRetries : Nat)
    (initialDelay : Nat) (shouldRetry : T → Bool) : RetryTrace T :=
  retryWithBackoffGo fn shouldRetry maxRetries 0 (maxRetries + 1) initialDelay none

/-- An invocation outcome on which `retryWithBackoff` keeps retrying:
either `fn` threw, or it returned a value satisfying `shouldRetry`. -/
def retryableB {T : Type} (shouldRetry : T → Bool) : FnOutcome T → Bool
  | FnOutcome.ok r => shouldRetry r
  | FnOutcome.err _ => true

/-- The error of the most recent throwing invocation among attempts
`lo, lo+1, …, lo+n-1`, or `none` when none of them threw: this is what the
`lastError` variable of `retryWithBackoff` holds after those attempts. -/
def lastCaught {T : Type} (fn : Nat → FnOutcome T) (lo : Nat) : Nat → Option String
  | 0 => none
  | n + 1 =>
      match fn (lo + n) with
      | FnOutcome.err e => some e
      | FnOutcome.ok _ => lastCaught fn lo n

/-- First-some choice on options, mirroring JavaScript
`lastError || new Error(...)`. -/
def optOr : Option String → Option String → Option String
  | some e, _ => some e
  | none, b => b

/-- Response of the Strapi admin login endpoint as `adminLogin` consumes
it: `ok` and `status` from the HTTP response, `token` the parsed
`loginData.data.token` of a successful response, `text` the raw error
body of a failed one. -/
structure HttpResponse where
  ok : Bool
  status : Nat
  token : String
  text : String
deriving Repr, DecidableEq

/-- Trace of one call to `adminLogin`: result, number of POST requests
actually sent, and the sleeps performed. -/
structure LoginTrace where
  result : Except String String
  requests : Nat
  delays : List Nat
deriving Repr

/-- Loop body of `adminLogin` (helpers.ts lines 43-82), fuelled like
`retryWithBackoffGo`.  Each iteration with `attempt > 0` first sleeps
`delay` and doubles it, then POSTs `/admin/login`.  A 2xx response
returns the token; a 429 with `attempt < maxRetries` continues; any other
failure throws on the final attempt and otherwise falls through to the
next iteration (there is no early abort for non-429 statuses). -/
def adminLoginGo (resp : Nat → HttpResponse) (maxRetries : Nat) :
    Nat → Nat → Nat → LoginTrace
  | _attempt, 0, _delay =>
      ⟨Except.error "Admin login failed: Max retries exceeded", 0, []⟩
  | attempt, remaining + 1, delay =>
      let sleeps := if 0 < attempt then [delay] else []
      let delay2 := if 0 < attempt then delay * 2 else delay
      let r := resp attempt
      if r.ok then
        ⟨Except.ok r.token, 1, sleeps⟩
      else if r.status == 429 && attempt < maxRetries then
        let t := adminLoginGo resp maxRetries (attempt + 1) remaining delay2
        ⟨t.result, t.requests + 1, sleeps ++ t.delays⟩
      else if attempt == maxRetries then
        ⟨Except.error ("Admin login failed after " ++ toString maxRetries ++
            " attempts: " ++ toString r.status ++ " " ++ r.text), 1, sleeps⟩
      else
        let t := adminLoginGo resp maxRetries (attempt + 1) remaining delay2
        ⟨t.result, t.requests + 1, sleeps ++ t.delays⟩

/-- `adminLogin(request, email, password, maxRetries)` from helpers.ts
lines 43-82; `resp a` is the server's response to the `a`-th login POST.
The initial delay is 1000 ms.  Default at call sites: `maxRetries = 5`. -/
def adminLogin (resp : Nat → HttpResponse) (maxRetries : Nat) : LoginTrace :=
  adminLoginGo resp maxRetries 0 (maxRetries + 1) 1000

/-- Response to one GET/PUT of a resource, as `getResourceWithRetry` and
`updateResourceWithRetry` consume it: `body` is the parsed JSON of a
successful response, `text` the raw body of a failed one. -/
structure GetResponse (α : Type) where
  ok : Bool
  status : Nat
  body : α
  text : String
deriving Repr, DecidableEq

/-- Trace of one call to `getResourceWithRetry` /
`updateResourceWithRetry`. -/
structure GetTrace (α : Type) where
  result : Except String α
  requests : Nat
  delays : List Nat
deriving Repr

/-- Loop body of `getResourceWithRetry` (helpers.ts lines 192-229),
fuelled like `adminLoginGo`.  Each iteration with `attempt > 0` first
sleeps `delay` and doubles it, then GETs the url.  A 2xx response returns
the parsed body; a 404 with `attempt < maxRetries` continues (resource
not visible yet); any other failure throws on the final attempt and
otherwise falls through to the next iteration. -/
def getResourceWithRetryGo {α : Type} (resp : Nat → GetResponse α) (url : String)
    (maxRetries : Nat) : Nat → Nat → Nat → GetTrace α
  | _attempt, 0, _delay =>
      ⟨Except.error ("GET " ++ url ++ " failed: Max retries exceeded"), 0, []⟩
  | attempt, remaining + 1, delay =>
      let sleeps := if 0 < attempt then [delay] else []
      let delay2 := if 0 < attempt then delay * 2 else delay
      let r := resp attempt
      if r.ok then
        ⟨Except.ok r.body, 1, sleeps⟩
      else if r.status == 404 && attempt < maxRetries then
        let t := getResourceWithRetryGo resp url maxRetries (attempt + 1) remaining delay2
        ⟨t.result, t.requests + 1, sleeps ++ t.delays⟩
      else if attempt == maxRetries then
        ⟨Except.error ("GET " ++ url ++ " failed after " ++ toString maxRetries ++
            " attempts: " ++ toString r.status ++ " " ++ r.text), 1, sleeps⟩
      else
        let t := getResourceWithRetryGo resp url maxRetries (attempt + 1) remaining delay2
        ⟨t.result, t.requests + 1, sleeps ++ t.delays⟩

/-- `getResourceWithRetry(request, url, apiToken, maxRetries)` from
helpers.ts lines 192-229; `resp a` is the server's response to the `a`-th
GET.  The initial delay is 500 ms.  Default: `maxRetries = 5`. -/
def getResourceWithRetry {α : Type} (resp : Nat → GetResponse α) (url : String)
    (maxRetries : Nat) : GetTrace α :=
  getResourceWithRetryGo resp url maxRetries 0 (maxRetries + 1) 500

/-- Loop body of `updateResourceWithRetry` (helpers.ts lines 234-274):
identical to `getResourceWithRetryGo` except that the request is a PUT
carrying a JSON body (absorbed into `resp`) and the error messages say
`PUT`. -/
def updateResourceWithRetryGo {α : Type} (resp : Nat → GetResponse α) (url : String)
    (maxRetries : Nat) : Nat → Nat → Nat → GetTrace α
  | _attempt, 0, _delay =>
      ⟨Except.error ("PUT " ++ url ++ " failed: Max retries exceeded"), 0, []⟩
  | attempt, remaining + 1, delay =>
      let sleeps := if 0 < attempt then [delay] else []
      let delay2 := if 0 < attempt then delay * 2 else delay
      let r := resp attempt
      if r.ok then
        ⟨Except.ok r.body, 1, sleeps⟩
      else if r.status == 404 && attempt < maxRetries then
        let t := updateResourceWithRetryGo resp url maxRetries (attempt + 1) remaining delay2
        ⟨t.result, t.requests + 1, sleeps ++ t.delays⟩
      else if attempt == maxRetries then
        ⟨Except.error ("PUT " ++ url ++ " failed after " ++ toString maxRetries ++
            " attempts: " ++ toString r.status ++ " " ++ r.text), 1, sleeps⟩
      else
        let t := updateResourceWithRetryGo resp url maxRetries (attempt + 1) remaining delay2
        ⟨t.result, t.requests + 1, sleeps ++ t.delays⟩

/-- `updateResourceWithRetry(request, url, apiToken, data, maxRetries)`
from helpers.ts lines 234-274; `resp a` is the server's response to the
`a`-th PUT of `data`. -/
def updateResourceWithRetry {α : Type} (resp : Nat → GetResponse α) (url : String)
    (maxRetries : Nat) : GetTrace α :=
  updateResourceWithRetryGo resp url maxRetries 0 (maxRetries + 1) 500

/-- The error thrown by the most recent throwing invocation, if any. -/
def errOf {T : Type} : FnOutcome T → Option String
  | FnOutcome.ok _ => none
  | FnOutcome.err e => some e

lemma optOr_none (a : Option String) : optOr a none = a := by
  cases a <;> rfl

lemma optOr_or_some (a : Option String) (e : String) (c : Option String) :
    optOr (optOr a (some e)) c = optOr a (some e) := by
  cases a <;> rfl

lemma lastCaught_succ {T : Type} (fn : Nat → FnOutcome T) (lo n : Nat) :
    lastCaught fn lo (n + 1) =
      match fn (lo + n) with
      | FnOutcome.err e => some e
      | FnOutcome.ok _ => lastCaught fn lo n := rfl

lemma lastCaught_cons {T : Type} (fn : Nat → FnOutcome T) :
    ∀ (n lo : Nat),
      lastCaught fn lo (n + 1) = optOr (lastCaught fn (lo + 1) n) (errOf (fn lo)) := by
  intro n
  induction n with
  | zero =>
      intro lo
      rw [lastCaught_succ]
      cases h : fn (lo + 0) <;>
        simp_all [lastCaught, errOf, optOr, Nat.add_zero]
  | succ n ih =>
      intro lo
      have hidx : lo + 1 + n = lo + (n + 1) := by omega
      rw [lastCaught_succ]
      conv_rhs => rw [lastCaught_succ, hidx]
      cases h : fn (lo + (n + 1)) with
      | err e => simp [h, optOr]
      | ok r =>
          simp only [h]
          exact ih lo

lemma retryWithBackoffGo_zero {T : Type} (fn : Nat → FnOutcome T) (p : T → Bool)
    (m attempt delay : Nat) (le : Option String) :
    retryWithBackoffGo fn p m attempt 0 delay le =
      ⟨Except.error (le.getD "Max retries exceeded"), 0, []⟩ := rfl

lemma retryWithBackoffGo_succ {T : Type} (fn : Nat → FnOutcome T) (p : T → Bool)
    (m attempt remaining delay : Nat) (le : Option String) :
    retryWithBackoffGo fn p m attempt (remaining + 1) delay le =
      match fn attempt with
      | FnOutcome.ok r =>
          if p r then
            let sleeps := if attempt < m then [delay] else []
            let delay2 := if attempt < m then delay * 2 else delay
            let t := retryWithBackoffGo fn p m (attempt + 1) remaining delay2 le
            ⟨t.result, t.calls + 1, sleeps ++ t.delays⟩
          else
            ⟨Except.ok r, 1, []⟩
      | FnOutcome.err e =>
          let sleeps := if attempt < m then [delay] else []
          let delay2 := if attempt < m then delay * 2 else delay
          let t := retryWithBackoffGo fn p m (attempt + 1) remaining delay2 (some e)
          ⟨t.result, t.calls + 1, sleeps ++ t.delays⟩ := rfl

lemma retryWithBackoffGo_succ_ok {T : Type} {fn : Nat → FnOutcome T} (p : T → Bool)
    (m attempt remaining delay : Nat) (le : Option String) {r : T}
    (hfn : fn attempt = FnOutcome.ok r) :
    retryWithBackoffGo fn p m attempt (remaining + 1) delay le =
      if p r then
        ⟨(retryWithBackoffGo fn p m (attempt + 1) remaining
            (if attempt < m then delay * 2 else delay) le).result,
         (retryWithBackoffGo fn p m (attempt + 1) remaining
            (if attempt < m then delay * 2 else delay) le).calls + 1,
         (if attempt < m then [delay] else []) ++
           (retryWithBackoffGo fn p m (attempt + 1) remaining
              (if attempt < m then delay * 2 else delay) le).delays⟩
      else ⟨Except.ok r, 1, []⟩ := by
  rw [retryWithBackoffGo_succ, hfn]

lemma retryWithBackoffGo_succ_err {T : Type} {fn : Nat → FnOutcome T} (p : T → Bool)
    (m attempt remaining delay : Nat) (le : Option String) {e : String}
    (hfn : fn attempt = FnOutcome.err e) :
    retryWithBackoffGo fn p m attempt (remaining + 1) delay le =
      ⟨(retryWithBackoffGo fn p m (attempt + 1) remaining
          (if attempt < m then delay * 2 else delay) (some e)).result,
       (retryWithBackoffGo fn p m (attempt + 1) remaining
          (if attempt < m then delay * 2 else delay) (some e)).calls + 1,
       (if attempt < m then [delay] else []) ++
         (retryWithBackoffGo fn p m (attempt + 1) remaining
            (if attempt < m then delay * 2 else delay) (some e)).delays⟩ := by
  rw [retryWithBackoffGo_succ, hfn]

/-- A call that returns normally returned a value the predicate rejects:
the loop only executes `return result` under `!shouldRetry(result)`. -/
lemma retryWithBackoffGo_ok {T : Type} (fn : Nat → FnOutcome T) (p : T → Bool) (m : Nat) :
    ∀ (remaining attempt delay : Nat) (le : Option String) (r : T),
      (retryWithBackoffGo fn p m attempt remaining delay le).result = Except.ok r →
      p r = false := by
  intro remaining
  induction remaining with
  | zero =>
      intro attempt delay le r h
      simp [retryWithBackoffGo_zero] at h
  | succ n ih =>
      intro attempt delay le r h
      cases hfn : fn attempt with
      | ok r' =>
          rw [retryWithBackoffGo_succ_ok p m attempt n delay le hfn] at h
          by_cases hp : p r' = true
          · rw [if_pos hp] at h
            exact ih _ _ _ _ h
          · rw [if_neg hp] at h
            simp only [Except.ok.injEq] at h
            subst h
            exact Bool.not_eq_true _ |>.mp hp
      | err e =>
          rw [retryWithBackoffGo_succ_err p m attempt n delay le hfn] at h
          exact ih _ _ _ _ h

/-- When every attempt in the window is retryable (throws or yields a
value the predicate accepts), the loop exhausts the window, makes one
invocation per iteration, and ends up throwing the most recent caught
error (or the initial `lastError`, or `Max retries exceeded`). -/
lemma retryWithBackoffGo_allfail {T : Type} (fn : Nat → FnOutcome T) (p : T → Bool) (m : Nat) :
    ∀ (remaining attempt delay : Nat) (le : Option String),
      (∀ a, attempt ≤ a → a < attempt + remaining → retryableB p (fn a) = true) →
      (retryWithBackoffGo fn p m attempt remaining delay le).result
          = Except.error ((optOr (lastCaught fn attempt remaining) le).getD "Max retries exceeded")
      ∧ (retryWithBackoffGo fn p m attempt remaining delay le).calls = remaining := by
  intro remaining
  induction remaining with
  | zero =>
      intro attempt delay le _h
      simp [retryWithBackoffGo_zero, lastCaught, optOr]
  | succ n ih =>
      intro attempt delay le hall
      have hattempt : retryableB p (fn attempt) = true :=
        hall attempt (Nat.le_refl _) (by omega)
      have hall' : ∀ a, attempt + 1 ≤ a → a < (attempt + 1) + n → retryableB p (fn a) = true := by
        intro a h1 h2
        exact hall a (by omega) (by omega)
      cases hfn : fn attempt with
      | ok r =>
          have hp : p r = true := by
            rw [hfn] at hattempt
            simpa [retryableB] using hattempt
          have hih := ih (attempt + 1) (if attempt < m then delay * 2 else delay) le hall'
          have hlc : lastCaught fn attempt (n + 1) = lastCaught fn (attempt + 1) n := by
            rw [lastCaught_cons fn n attempt, hfn]
            simp [errOf, optOr_none]
          rw [retryWithBackoffGo_succ_ok p m attempt n delay le hfn, if_pos hp]
          exact ⟨by simp only [hih.1, hlc], by simp [hih.2]⟩
      | err e =>
          have hih := ih (attempt + 1) (if attempt < m then delay * 2 else delay) (some e) hall'
          have hlc : lastCaught fn attempt (n + 1) = optOr (lastCaught fn (attempt + 1) n) (some e) := by
            rw [lastCaught_cons fn n attempt, hfn]
            rfl
          rw [retryWithBackoffGo_succ_err p m attempt n delay le hfn]
          exact ⟨by simp only [hih.1, hlc, optOr_or_some], by simp [hih.2]⟩

lemma range_map_double (d n : Nat) :
    (List.range (n + 1)).map (fun i => d * 2 ^ i)
      = d :: (List.range n).map (fun i => d * 2 * 2 ^ i) := by
  have hf : ((fun i => d * 2 ^ i) ∘ Nat.succ) = fun i => d * 2 * 2 ^ i := by
    funext i
    simp only [Function.comp_apply, pow_succ]
    ring
  rw [List.range_succ_eq_map, List.map_cons, List.map_map, hf]
  simp

lemma adminLoginGo_succ (resp : Nat → HttpResponse) (m attempt remaining delay : Nat) :
    adminLoginGo resp m attempt (remaining + 1) delay =
      if (resp attempt).ok then
        ⟨Except.ok (resp attempt).token, 1, if 0 < attempt then [delay] else []⟩
      else if (resp attempt).status == 429 && attempt < m then
        ⟨(adminLoginGo resp m (attempt + 1) remaining
            (if 0 < attempt then delay * 2 else delay)).result,
         (adminLoginGo resp m (attempt + 1) remaining
            (if 0 < attempt then delay * 2 else delay)).requests + 1,
         (if 0 < attempt then [delay] else []) ++
           (adminLoginGo resp m (attempt + 1) remaining
              (if 0 < attempt then delay * 2 else delay)).delays⟩
      else if attempt == m then
        ⟨Except.error ("Admin login failed after " ++ toString m ++ " attempts: "
            ++ toString (resp attempt).status ++ " " ++ (resp attempt).text), 1,
         if 0 < attempt then [delay] else []⟩
      else
        ⟨(adminLoginGo resp m (attempt + 1) remaining
            (if 0 < attempt then delay * 2 else delay)).result,
         (adminLoginGo resp m (attempt + 1) remaining
            (if 0 < attempt then delay * 2 else delay)).requests + 1,
         (if 0 < attempt then [delay] else []) ++
           (adminLoginGo resp m (attempt + 1) remaining
              (if 0 < attempt then delay * 2 else delay)).delays⟩ := rfl

/-- When every login attempt in scope fails (any status), the loop sends
one POST per iteration, sleeps with doubling delay before every retry,
and throws the final-attempt error carrying the last response's status
and body. -/
lemma adminLoginGo_allfail (resp : Nat → HttpResponse) (m : Nat) :
    ∀ (remaining attempt delay : Nat),
      attempt + remaining = m + 1 → attempt ≤ m →
      (∀ a, attempt ≤ a → a ≤ m → (resp a).ok = false) →
      adminLoginGo resp m attempt remaining delay =
        ⟨Except.error ("Admin login failed after " ++ toString m ++ " attempts: "
            ++ toString (resp m).status ++ " " ++ (resp m).text),
         remaining,
         (List.range (remaining - (if attempt == 0 then 1 else 0))).map
           (fun i => delay * 2 ^ i)⟩ := by
  intro remaining
  induction remaining with
  | zero =>
      intro attempt delay h1 h2 _hall
      omega
  | succ n ih =>
      intro attempt delay h1 h2 hall
      have hok : (resp attempt).ok = false := hall attempt le_rfl h2
      rw [adminLoginGo_succ, if_neg (by simp [hok])]
      by_cases ham : attempt = m
      · have hn : n = 0 := by omega
        subst hn
        have hb : ¬ (((resp attempt).status == 429 && decide (attempt < m)) = true) := by
          simp [ham]
        rw [if_neg hb, if_pos (by simp [ham]), ham]
        by_cases h0 : m = 0
        · simp [h0]
        · have hpos : 0 < m := Nat.pos_of_ne_zero h0
          have h0f : (m == 0) = false := by simp [h0]
          simp [hpos, h0f, List.range_succ]
      · have hlt : attempt < m := by omega
        have hih := ih (attempt + 1) (if 0 < attempt then delay * 2 else delay)
          (by omega) (by omega) (fun a ha1 ha2 => hall a (by omega) ha2)
        have hdelays :
            (if 0 < attempt then [delay] else []) ++
              (List.range (n - (if attempt + 1 == 0 then 1 else 0))).map
                (fun i => (if 0 < attempt then delay * 2 else delay) * 2 ^ i)
            = (List.range (n + 1 - (if attempt == 0 then 1 else 0))).map
                (fun i => delay * 2 ^ i) := by
          have hsz : (attempt + 1 == 0) = false := by simp
          by_cases h0 : attempt = 0
          · subst h0
            simp
          · have hpos : 0 < attempt := Nat.pos_of_ne_zero h0
            have h0f : (attempt == 0) = false := by simp [h0]
            simp only [hsz, h0f, Bool.false_eq_true, if_false, Nat.sub_zero, if_pos hpos]
            rw [range_map_double]
            simp
        by_cases hb : ((resp attempt).status == 429 && decide (attempt < m)) = true
        · rw [if_pos hb, hih]
          dsimp only
          rw [hdelays]
        · have hm : ¬ ((attempt == m) = true) := by simp [ham]
          rw [if_neg hb, if_neg hm, hih]
          dsimp only
          rw [hdelays]

lemma getResourceWithRetryGo_succ {α : Type} (resp : Nat → GetResponse α) (url : String)
    (m attempt remaining delay : Nat) :
    getResourceWithRetryGo resp url m attempt (remaining + 1) delay =
      if (resp attempt).ok then
        ⟨Except.ok (resp attempt).body, 1, if 0 < attempt then [delay] else []⟩
      else if (resp attempt).status == 404 && attempt < m then
        ⟨(getResourceWithRetryGo resp url m (attempt + 1) remaining
            (if 0 < attempt then delay * 2 else delay)).result,
         (getResourceWithRetryGo resp url m (attempt + 1) remaining
            (if 0 < attempt then delay * 2 else delay)).requests + 1,
         (if 0 < attempt then [delay] else []) ++
           (getResourceWithRetryGo resp url m (attempt + 1) remaining
              (if 0 < attempt then delay * 2 else delay)).delays⟩
      else if attempt == m then
        ⟨Except.error ("GET " ++ url ++ " failed after " ++ toString m ++ " attempts: "
            ++ toString (resp attempt).status ++ " " ++ (resp attempt).text), 1,
         if 0 < attempt then [delay] else []⟩
      else
        ⟨(getResourceWithRetryGo resp url m (attempt + 1) remaining
            (if 0 < attempt then delay * 2 else delay)).result,
         (getResourceWithRetryGo resp url m (attempt + 1) remaining
            (if 0 < attempt then delay * 2 else delay)).requests + 1,
         (if 0 < attempt then [delay] else []) ++
           (getResourceWithRetryGo resp url m (attempt + 1) remaining
              (if 0 < attempt then delay * 2 else delay)).delays⟩ := rfl

/-- When every GET in scope fails (any status), the loop sends one GET per
iteration, sleeps with doubling delay before every retry, and throws the
final-attempt error. -/
lemma getResourceWithRetryGo_allfail {α : Type} (resp : Nat → GetResponse α) (url : String)
    (m : Nat) :
    ∀ (remaining attempt delay : Nat),
      attempt + remaining = m + 1 → attempt ≤ m →
      (∀ a, attempt ≤ a → a ≤ m → (resp a).ok = false) →
      getResourceWithRetryGo resp url m attempt remaining delay =
        ⟨Except.error ("GET " ++ url ++ " failed after " ++ toString m ++ " attempts: "
            ++ toString (resp m).status ++ " " ++ (resp m).text),
         remaining,
         (List.range (remaining - (if attempt == 0 then 1 else 0))).map
           (fun i => delay * 2 ^ i)⟩ := by
  intro remaining
  induction remaining with
  | zero =>
      intro attempt delay h1 h2 _hall
      omega
  | succ n ih =>
      intro attempt delay h1 h2 hall
      have hok : (resp attempt).ok = false := hall attempt le_rfl h2
      rw [getResourceWithRetryGo_succ, if_neg (by simp [hok])]
      by_cases ham : attempt = m
      · have hn : n = 0 := by omega
        subst hn
        have hb : ¬ (((resp attempt).status == 404 && decide (attempt < m)) = true) := by
          simp [ham]
        rw [if_neg hb, if_pos (by simp [ham]), ham]
        by_cases h0 : m = 0
        · simp [h0]
        · have hpos : 0 < m := Nat.pos_of_ne_zero h0
          have h0f : (m == 0) = false := by simp [h0]
          simp [hpos, h0f, List.range_succ]
      · have hlt : attempt < m := by omega
        have hih := ih (attempt + 1) (if 0 < attempt then delay * 2 else delay)
          (by omega) (by omega) (fun a ha1 ha2 => hall a (by omega) ha2)
        have hdelays :
            (if 0 < attempt then [delay] else []) ++
              (List.range (n - (if attempt + 1 == 0 then 1 else 0))).map
                (fun i => (if 0 < attempt then delay * 2 else delay) * 2 ^ i)
            = (List.range (n + 1 - (if attempt == 0 then 1 else 0))).map
                (fun i => delay * 2 ^ i) := by
          have hsz : (attempt + 1 == 0) = false := by simp
          by_cases h0 : attempt = 0
          · subst h0
            simp
          · have hpos : 0 < attempt := Nat.pos_of_ne_zero h0
            have h0f : (attempt == 0) = false := by simp [h0]
            simp only [hsz, h0f, Bool.false_eq_true, if_false, Nat.sub_zero, if_pos hpos]
            rw [range_map_double]
            simp
        by_cases hb : ((resp attempt).status == 404 && decide (attempt < m)) = true
        · rw [if_pos hb, hih]
          dsimp only
          rw [hdelays]
        · have hm : ¬ ((attempt == m) = true) := by simp [ham]
          rw [if_neg hb, if_neg hm, hih]
          dsimp only
          rw [hdelays]

/-- Read-after-create: when the first `K` GETs return 404 and the
`K`-th attempt succeeds, the loop returns the successful response body
after `K + 1` requests, sleeping `delay, 2*delay, …` between requests. -/
lemma getResourceWithRetryGo_skip {α : Type} (resp : Nat → GetResponse α) (url : String)
    (m : Nat) :
    ∀ (K attempt delay : Nat),
      attempt + K ≤ m →
      (∀ i, attempt ≤ i → i < attempt + K → (resp i).ok = false ∧ (resp i).status = 404) →
      (resp (attempt + K)).ok = true →
      getResourceWithRetryGo resp url m attempt (m + 1 - attempt) delay =
        ⟨Except.ok ((resp (attempt + K)).body), K + 1,
         (List.range (K + (if attempt == 0 then 0 else 1))).map (fun i => delay * 2 ^ i)⟩ := by
  intro K
  induction K with
  | zero =>
      intro attempt delay hle _hfail hok
      have hrem : m + 1 - attempt = (m - attempt) + 1 := by omega
      rw [hrem, getResourceWithRetryGo_succ, if_pos (by simpa using hok)]
      by_cases h0 : attempt = 0
      · subst h0
        simp
      · have hpos : 0 < attempt := Nat.pos_of_ne_zero h0
        have h0f : (attempt == 0) = false := by simp [h0]
        simp [hpos, h0f, List.range_succ]
  | succ K ihk =>
      intro attempt delay hle hfail hok
      have h404 := hfail attempt le_rfl (by omega)
      have hrem : m + 1 - attempt = (m - attempt) + 1 := by omega
      rw [hrem, getResourceWithRetryGo_succ, if_neg (by simp [h404.1])]
      have hcond : ((resp attempt).status == 404 && decide (attempt < m)) = true := by
        have : attempt < m := by omega
        simp [h404.2, this]
      rw [if_pos hcond]
      have harg : attempt + 1 + K = attempt + (K + 1) := by omega
      have hih := ihk (attempt + 1) (if 0 < attempt then delay * 2 else delay)
        (by omega) (fun i hi1 hi2 => hfail i (by omega) (by omega))
        (by rw [harg]; exact hok)
      have hrem2 : m - attempt = m + 1 - (attempt + 1) := by omega
      rw [hrem2, hih]
      dsimp only
      have hbody : (resp (attempt + 1 + K)).body = (resp (attempt + (K + 1))).body := by
        rw [harg]
      have hdelays :
          (if 0 < attempt then [delay] else []) ++
            (List.range (K + (if attempt + 1 == 0 then 0 else 1))).map
              (fun i => (if 0 < attempt then delay * 2 else delay) * 2 ^ i)
          = (List.range ((K + 1) + (if attempt == 0 then 0 else 1))).map
              (fun i => delay * 2 ^ i) := by
        have hsz : (attempt + 1 == 0) = false := by simp
        by_cases h0 : attempt = 0
        · subst h0
          simp
        · have hpos : 0 < attempt := Nat.pos_of_ne_zero h0
          have h0f : (attempt == 0) = false := by simp [h0]
          simp only [hsz, h0f, Bool.false_eq_true, if_false, if_pos hpos]
          conv_rhs => rw [range_map_double delay (K + 1)]
          simp
      rw [hbody, hdelays]

lemma updateResourceWithRetryGo_succ {α : Type} (resp : Nat → GetResponse α) (url : String)
    (m attempt remaining delay : Nat) :
    updateResourceWithRetryGo resp url m attempt (remaining + 1) delay =
      if (resp attempt).ok then
        ⟨Except.ok (resp attempt).body, 1, if 0 < attempt then [delay] else []⟩
      else if (resp attempt).status == 404 && attempt < m then
        ⟨(updateResourceWithRetryGo resp url m (attempt + 1) remaining
            (if 0 < attempt then delay * 2 else delay)).result,
         (updateResourceWithRetryGo resp url m (attempt + 1) remaining
            (if 0 < attempt then delay * 2 else delay)).requests + 1,
         (if 0 < attempt then [delay] else []) ++
           (updateResourceWithRetryGo resp url m (attempt + 1) remaining
              (if 0 < attempt then delay * 2 else delay)).delays⟩
      else if attempt == m then
        ⟨Except.error ("PUT " ++ url ++ " failed after " ++ toString m ++ " attempts: "
            ++ toString (resp attempt).status ++ " " ++ (resp attempt).text), 1,
         if 0 < attempt then [delay] else []⟩
      else
        ⟨(updateResourceWithRetryGo resp url m (attempt + 1) remaining
            (if 0 < attempt then delay * 2 else delay)).result,
         (updateResourceWithRetryGo resp url m (attempt + 1) remaining
            (if 0 < attempt then delay * 2 else delay)).requests + 1,
         (if 0 < attempt then [delay] else []) ++
           (updateResourceWithRetryGo resp url m (attempt + 1) remaining
              (if 0 < attempt then delay * 2 else delay)).delays⟩ := rfl

/-- When every PUT in scope fails (any status), the loop sends one PUT per
iteration and throws the final-attempt error. -/
lemma updateResourceWithRetryGo_allfail {α : Type} (resp : Nat → GetResponse α) (url : String)
    (m : Nat) :
    ∀ (remaining attempt delay : Nat),
      attempt + remaining = m + 1 → attempt ≤ m →
      (∀ a, attempt ≤ a → a ≤ m → (resp a).ok = false) →
      updateResourceWithRetryGo resp url m attempt remaining delay =
        ⟨Except.error ("PUT " ++ url ++ " failed after " ++ toString m ++ " attempts: "
            ++ toString (resp m).status ++ " " ++ (resp m).text),
         remaining,
         (List.range (remaining - (if attempt == 0 then 1 else 0))).map
           (fun i => delay * 2 ^ i)⟩ := by
  intro remaining
  induction remaining with
  | zero =>
      intro attempt delay h1 h2 _hall
      omega
  | succ n ih =>
      intro attempt delay h1 h2 hall
      have hok : (resp attempt).ok = false := hall attempt le_rfl h2
      rw [updateResourceWithRetryGo_succ, if_neg (by simp [hok])]
      by_cases ham : attempt = m
      · have hn : n = 0 := by omega
        subst hn
        have hb : ¬ (((resp attempt).status == 404 && decide (attempt < m)) = true) := by
          simp [ham]
        rw [if_neg hb, if_pos (by simp [ham]), ham]
        by_cases h0 : m = 0
        · simp [h0]
        · have hpos : 0 < m := Nat.pos_of_ne_zero h0
          have h0f : (m == 0) = false := by simp [h0]
          simp [hpos, h0f, List.range_succ]
      · have hlt : attempt < m := by omega
        have hih := ih (attempt + 1) (if 0 < attempt then delay * 2 else delay)
          (by omega) (by omega) (fun a ha1 ha2 => hall a (by omega) ha2)
        have hdelays :
            (if 0 < attempt then [delay] else []) ++
              (List.range (n - (if attempt + 1 == 0 then 1 else 0))).map
                (fun i => (if 0 < attempt then delay * 2 else delay) * 2 ^ i)
            = (List.range (n + 1 - (if attempt == 0 then 1 else 0))).map
                (fun i => delay * 2 ^ i) := by
          have hsz : (attempt + 1 == 0) = false := by simp
          by_cases h0 : attempt = 0
          · subst h0
            simp
          · have hpos : 0 < attempt := Nat.pos_of_ne_zero h0
            have h0f : (attempt == 0) = false := by simp [h0]
            simp only [hsz, h0f, Bool.false_eq_true, if_false, Nat.sub_zero, if_pos hpos]
            rw [range_map_double]
            simp
        by_cases hb : ((resp attempt).status == 404 && decide (attempt < m)) = true
        · rw [if_pos hb, hih]
          dsimp only
          rw [hdelays]
        · have hm : ¬ ((attempt == m) = true) := by simp [ham]
          rw [if_neg hb, if_neg hm, hih]
          dsimp only
          rw [hdelays]

end Helpers

/-- Pagination metadata of the Strapi response envelope, from
`tests/e2e/types.ts`. -/
structure Pagination where
  page : Nat
  pageSize : Nat
  pageCount : Nat
  total : Nat
deriving Repr, DecidableEq

/-- Strapi REST response envelope `{data, meta?}` from
`tests/e2e/types.ts`. -/
structure StrapiResponse (α : Type) where
  data : α
  meta : Option Pagination
deriving Repr, DecidableEq

/-- Article entity from `tests/e2e/types.ts`.  The optional author
relation (a union of an `Author` object and a numeric id) is not needed
by any claim and is omitted. -/
structure Article where
  id : Nat
  title : String
  description : String
  publishedAt : Option String
  createdAt : Option String
  updatedAt : Option String
deriving Repr, DecidableEq

/-- A callback that throws on attempt 1 and yields the retryable value 7
on every other attempt: used to exercise `retryWithBackoff`. -/
def fnFlaky : Nat → Helpers.FnOutcome Nat :=
  fun a => if a == 1 then Helpers.FnOutcome.err "boom" else Helpers.FnOutcome.ok 7

/-- A `shouldRetry` predicate accepting exactly the value 7. -/
def pSeven : Nat → Bool := fun r => r == 7

/-- A callback that throws on every invocation. -/
def fnAlwaysThrow : Nat → Helpers.FnOutcome Nat :=
  fun _ => Helpers.FnOutcome.err "ECONNREFUSED"

/-- The default `shouldRetry = () => false` of helpers.ts. -/
def pNever : Nat → Bool := fun _ => false

/-- A login endpoint that always answers 503. -/
def respLogin503 : Nat → Helpers.HttpResponse :=
  fun _ => ⟨false, 503, "", "Service Unavailable"⟩

/-- A login endpoint that always rejects the credentials with 401. -/
def respLogin401 : Nat → Helpers.HttpResponse :=
  fun _ => ⟨false, 401, "", "Invalid credentials"⟩

/-- A resource endpoint that always answers 500. -/
def respGet500 : Nat → Helpers.GetResponse Nat :=
  fun _ => ⟨false, 500, 0, "Internal Server Error"⟩

/-- Claim C9: `retryWithBackoff` never returns a value for which the
`shouldRetry` predicate holds — a normal return carries a result the
predicate rejects; and when every attempt either throws or yields a
retryable result, the call throws the last caught error (`lastCaught`),
or a `Max retries exceeded` error when no exception was ever caught,
after exhausting all `maxRetries + 1` attempts. -/
theorem retryWithBackoff_contract :
    ∀ (T : Type) (fn : Nat → Helpers.FnOutcome T) (shouldRetry : T → Bool)
      (maxRetries initialDelay : Nat),
      (∀ r, (Helpers.retryWithBackoff fn maxRetries initialDelay shouldRetry).result
            = Except.ok r → shouldRetry r = false)
      ∧ ((∀ a, a ≤ maxRetries → Helpers.retryableB shouldRetry (fn a) = true) →
          (Helpers.retryWithBackoff fn maxRetries initialDelay shouldRetry).result
              = Except.error ((Helpers.lastCaught fn 0 (maxRetries + 1)).getD
                  "Max retries exceeded")
          ∧ (Helpers.retryWithBackoff fn maxRetries initialDelay shouldRetry).calls
              = maxRetries + 1) := by
  intro T fn p maxRetries initialDelay
  constructor
  · intro r h
    exact Helpers.retryWithBackoffGo_ok fn p maxRetries (maxRetries + 1) 0 initialDelay none r h
  · intro hall
    have h := Helpers.retryWithBackoffGo_allfail fn p maxRetries (maxRetries + 1) 0
      initialDelay none (fun a _ha2 hb => hall a (by omega))
    have h1 := h.1
    rw [Helpers.optOr_none] at h1
    exact ⟨h1, h.2⟩

theorem retryWithBackoff_contract_witness :
    (Helpers.retryWithBackoff fnFlaky 2 500 pSeven).result = Except.error "boom"
    ∧ (Helpers.retryWithBackoff fnFlaky 2 500 pSeven).calls = 3 := by
  have h := (retryWithBackoff_contract Nat fnFlaky pSeven 2 500).2 (by decide)
  have h2 : ((Helpers.lastCaught fnFlaky 0 3).getD "Max retries exceeded") = "boom" := by
    decide
  have h1 := h.1
  rw [h2] at h1
  exact ⟨h1, h.2⟩

/-- Claim C2 counterexample: with the configured attempt ceiling
`maxRetries = 5` and a callback that fails on every invocation,
`retryWithBackoff` invokes the callback 6 times — the loop
`for (attempt = 0; attempt <= maxRetries; attempt++)` makes one initial
attempt plus `maxRetries` retries — not 5 times, refuting that the call
never makes more invocations than the ceiling. -/
theorem retry_ceiling_cx :
    (Helpers.retryWithBackoff fnAlwaysThrow 5 500 pNever).calls = 6
    ∧ ¬ ((Helpers.retryWithBackoff fnAlwaysThrow 5 500 pNever).calls = 5) := by
  decide

/-- Claim C2 (amended): for every function that fails (or yields a
retryable result) on every invocation, each retrying call —
`retryWithBackoff`, `adminLogin`, `getResourceWithRetry`,
`updateResourceWithRetry` — terminates with a fatal error after exactly
`maxRetries + 1` invocations (attempts 0 through `maxRetries`
inclusive): it never loops unboundedly. -/
theorem retry_ceiling_plus_one :
    ∀ (maxRetries : Nat),
      (∀ (T : Type) (fn : Nat → Helpers.FnOutcome T) (shouldRetry : T → Bool)
          (initialDelay : Nat),
          (∀ a, a ≤ maxRetries → Helpers.retryableB shouldRetry (fn a) = true) →
          (Helpers.retryWithBackoff fn maxRetries initialDelay shouldRetry).calls
              = maxRetries + 1
          ∧ ∃ e, (Helpers.retryWithBackoff fn maxRetries initialDelay shouldRetry).result
              = Except.error e)
      ∧ (∀ resp : Nat → Helpers.HttpResponse,
          (∀ a, a ≤ maxRetries → (resp a).ok = false) →
          (Helpers.adminLogin resp maxRetries).requests = maxRetries + 1
          ∧ ∃ e, (Helpers.adminLogin resp maxRetries).result = Except.error e)
      ∧ (∀ (α : Type) (resp : Nat → Helpers.GetResponse α) (url : String),
          (∀ a, a ≤ maxRetries → (resp a).ok = false) →
          (Helpers.getResourceWithRetry resp url maxRetries).requests = maxRetries + 1
          ∧ ∃ e, (Helpers.getResourceWithRetry resp url maxRetries).result = Except.error e)
      ∧ (∀ (α : Type) (resp : Nat → Helpers.GetResponse α) (url : String),
          (∀ a, a ≤ maxRetries → (resp a).ok = false) →
          (Helpers.updateResourceWithRetry resp url maxRetries).requests = maxRetries + 1
          ∧ ∃ e, (Helpers.updateResourceWithRetry resp url maxRetries).result
              = Except.error e) := by
  intro m
  refine ⟨?_, ?_, ?_, ?_⟩
  · intro T fn p d hall
    have h := Helpers.retryWithBackoffGo_allfail fn p m (m + 1) 0 d none
      (fun a _h1 h2 => hall a (by omega))
    exact ⟨h.2, ⟨_, h.1⟩⟩
  · intro resp hall
    have h : Helpers.adminLogin resp m
        = ⟨Except.error ("Admin login failed after " ++ toString m ++ " attempts: "
              ++ toString (resp m).status ++ " " ++ (resp m).text),
           m + 1, (List.range m).map (fun i => 1000 * 2 ^ i)⟩ :=
      Helpers.adminLoginGo_allfail resp m (m + 1) 0 1000 (by omega) (by omega)
        (fun a _h1 h2 => hall a h2)
    exact ⟨by rw [h], ⟨_, by rw [h]⟩⟩
  · intro α resp url hall
    have h : Helpers.getResourceWithRetry resp url m
        = ⟨Except.error ("GET " ++ url ++ " failed after " ++ toString m ++ " attempts: "
              ++ toString (resp m).status ++ " " ++ (resp m).text),
           m + 1, (List.range m).map (fun i => 500 * 2 ^ i)⟩ :=
      Helpers.getResourceWithRetryGo_allfail resp url m (m + 1) 0 500 (by omega) (by omega)
        (fun a _h1 h2 => hall a h2)
    exact ⟨by rw [h], ⟨_, by rw [h]⟩⟩
  · intro α resp url hall
    have h : Helpers.updateResourceWithRetry resp url m
        = ⟨Except.error ("PUT " ++ url ++ " failed after " ++ toString m ++ " attempts: "
              ++ toString (resp m).status ++ " " ++ (resp m).text),
           m + 1, (List.range m).map (fun i => 500 * 2 ^ i)⟩ :=
      Helpers.updateResourceWithRetryGo_allfail resp url m (m + 1) 0 500 (by omega) (by omega)
        (fun a _h1 h2 => hall a h2)
    exact ⟨by rw [h], ⟨_, by rw [h]⟩⟩

theorem retry_ceiling_plus_one_witness :
    (Helpers.retryWithBackoff fnAlwaysThrow 5 500 pNever).calls = 5 + 1
    ∧ (Helpers.adminLogin respLogin503 5).requests = 5 + 1
    ∧ (Helpers.getResourceWithRetry respGet500 "/api/articles/1" 5).requests = 5 + 1
    ∧ (Helpers.updateResourceWithRetry respGet500 "/api/articles/1" 5).requests = 5 + 1 := by
  have h := retry_ceiling_plus_one 5
  exact ⟨(h.1 Nat fnAlwaysThrow pNever 500 (by decide)).1,
         (h.2.1 respLogin503 (by decide)).1,
         (h.2.2.1 Nat respGet500 "/api/articles/1" (by decide)).1,
         (h.2.2.2 Nat respGet500 "/api/articles/1" (by decide)).1⟩

/-- Claim C3 counterexample: a 401 rejection (authentication failure with
valid-looking credentials) does NOT abort `adminLogin` immediately: with
`maxRetries = 5` and a server that always answers 401, six POSTs are
sent, not one.  Only the final attempt throws; every earlier non-429
failure falls through to another retry. -/
theorem adminLogin_aborts_immediately_cx :
    (Helpers.adminLogin respLogin401 5).requests = 6
    ∧ ¬ ((Helpers.adminLogin respLogin401 5).requests = 1) := by
  decide

/-- Claim C3 (amended): `adminLogin` treats every failed login response
alike — 429 rate limiting and fatal statuses such as 401 are all retried
with exponential backoff (delays 1000, 2000, 4000, … ms) up to the
attempt ceiling; only after the final attempt does it abort, surfacing
the last response's status and body in the error. -/
theorem adminLogin_retry_policy :
    ∀ (resp : Nat → Helpers.HttpResponse) (maxRetries : Nat),
      (∀ a, a ≤ maxRetries → (resp a).ok = false) →
      (Helpers.adminLogin resp maxRetries).requests = maxRetries + 1
      ∧ (Helpers.adminLogin resp maxRetries).result
          = Except.error ("Admin login failed after " ++ toString maxRetries ++ " attempts: "
              ++ toString (resp maxRetries).status ++ " " ++ (resp maxRetries).text)
      ∧ (Helpers.adminLogin resp maxRetries).delays
          = (List.range maxRetries).map (fun i => 1000 * 2 ^ i) := by
  intro resp m hall
  have h : Helpers.adminLogin resp m
      = ⟨Except.error ("Admin login failed after " ++ toString m ++ " attempts: "
            ++ toString (resp m).status ++ " " ++ (resp m).text),
         m + 1, (List.range m).map (fun i => 1000 * 2 ^ i)⟩ :=
    Helpers.adminLoginGo_allfail resp m (m + 1) 0 1000 (by omega) (by omega)
      (fun a _h1 h2 => hall a h2)
  exact ⟨by rw [h], by rw [h], by rw [h]⟩

theorem adminLogin_retry_policy_witness :
    (Helpers.adminLogin respLogin401 5).requests = 5 + 1
    ∧ (Helpers.adminLogin respLogin401 5).result
        = Except.error ("Admin login failed after " ++ toString 5 ++ " attempts: "
            ++ toString (respLogin401 5).status ++ " " ++ (respLogin401 5).text)
    ∧ (Helpers.adminLogin respLogin401 5).delays
        = (List.range 5).map (fun i => 1000 * 2 ^ i) :=
  adminLogin_retry_policy respLogin401 5 (by decide)

/-- Claim C4: a GET issued right after a create treats 404 as transient:
with the default ceiling `maxRetries = 5`, when the first `K ≤ 5` GETs
answer 404 and the resource becomes visible on attempt `K`, the call
returns the created entity (with `data.title = "Test Article"` as
created), having sent `K + 1` requests with sleeps doubling from 500 ms
(`500, 1000, …`). -/
theorem getResourceWithRetry_read_after_create :
    ∀ (resp : Nat → Helpers.GetResponse (StrapiResponse Article)) (url : String) (K : Nat),
      K ≤ 5 →
      (∀ i, i < K → (resp i).ok = false ∧ (resp i).status = 404) →
      (resp K).ok = true →
      ((resp K).body).data.title = "Test Article" →
      (Helpers.getResourceWithRetry resp url 5).result = Except.ok ((resp K).body)
      ∧ ((Helpers.getResourceWithRetry resp url 5).result).toOption.map
          (fun b => b.data.title) = some "Test Article"
      ∧ (Helpers.getResourceWithRetry resp url 5).requests = K + 1
      ∧ (Helpers.getResourceWithRetry resp url 5).delays
          = (List.range K).map (fun i => 500 * 2 ^ i) := by
  intro resp url K hK hfail hok htitle
  have h : Helpers.getResourceWithRetry resp url 5
      = ⟨Except.ok ((resp K).body), K + 1, (List.range K).map (fun i => 500 * 2 ^ i)⟩ := by
    have h0 := Helpers.getResourceWithRetryGo_skip resp url 5 K 0 500 (by omega)
      (fun i _h1 h2 => hfail i (by omega)) (by rw [Nat.zero_add]; exact hok)
    rw [Nat.zero_add] at h0
    exact h0
  refine ⟨by rw [h], ?_, by rw [h], by rw [h]⟩
  rw [h]
  simp [Except.toOption, htitle]

/-- The article body returned once the created entity is visible. -/
def articleBodyW : StrapiResponse Article :=
  ⟨⟨1, "Test Article", "This is a test article description",
    some "2024-01-01T00:00:00.000Z", none, none⟩, none⟩

/-- A resource endpoint that answers 404 on the first two GETs and then
succeeds with `articleBodyW`. -/
def respW404 : Nat → Helpers.GetResponse (StrapiResponse Article) :=
  fun a => if a < 2 then ⟨false, 404, articleBodyW, "Not Found"⟩
           else ⟨true, 200, articleBodyW, ""⟩

theorem getResourceWithRetry_read_after_create_witness :
    (Helpers.getResourceWithRetry respW404 "/api/articles/1" 5).result
        = Except.ok ((respW404 2).body)
    ∧ ((Helpers.getResourceWithRetry respW404 "/api/articles/1" 5).result).toOption.map
        (fun b => b.data.title) = some "Test Article"
    ∧ (Helpers.getResourceWithRetry respW404 "/api/articles/1" 5).requests = 2 + 1
    ∧ (Helpers.getResourceWithRetry respW404 "/api/articles/1" 5).delays
        = (List.range 2).map (fun i => 500 * 2 ^ i) :=
  getResourceWithRetry_read_after_create respW404 "/api/articles/1" 2
    (by decide) (by decide) (by decide) (by decide)

namespace Terraform

/-- Input variables of the Terraform root module, from
`terraform/variables.tf`. -/
structure TerraformVars where
  aws_region : String
  app_name : String
  environment : String
  docker_image : String
  app_keys : String
  admin_jwt_secret : String
  api_token_salt : String
  transfer_token_salt : String
  jwt_secret : String
  task_cpu : Nat
  task_memory : Nat
  desired_count : Int
deriving Repr, DecidableEq

/-- Default of `variable "desired_count"` (variables.tf lines 96-100,
"Desired number of tasks (fixed at 1 for cost control)"). -/
def desired_count_default : Int := 1

/-- The `validation` blocks of variables.tf: exactly the six string
variables carry a `length(var.x) > 0` condition; `desired_count`,
`task_cpu` and `task_memory` have no validation block at all. -/
def varsValid (v : TerraformVars) : Bool :=
  decide (0 < v.docker_image.length) && decide (0 < v.app_keys.length)
    && decide (0 < v.admin_jwt_secret.length) && decide (0 < v.api_token_salt.length)
    && decide (0 < v.transfer_token_salt.length) && decide (0 < v.jwt_secret.length)

/-- the local value `"${var.app_name}-${var.environment}"` (main.tf names it with a lowercase p). -/
def namePrefix (v : TerraformVars) : String := v.app_name ++ "-" ++ v.environment

/-- `aws_ecs_task_definition.strapi` from ecs.tf (container port 1337). -/
structure EcsTaskDefinition where
  family : String
  cpu : Nat
  memory : Nat
  image : String
  containerPort : Nat
deriving Repr, DecidableEq

/-- `aws_ecs_service.strapi` from ecs.tf lines 185-199. -/
structure EcsService where
  name : String
  desired_count : Int
  launch_type : String
  assign_public_ip : Bool
deriving Repr, DecidableEq

/-- The resource set planned by the root module (cluster, log group, the
four Secrets Manager secret versions, task definition, service). -/
structure PlannedResources where
  cluster_name : String
  log_group_name : String
  secret_values : List (String × String)
  taskDef : EcsTaskDefinition
  service : EcsService
deriving Repr, DecidableEq

/-- Terraform evaluation of the root module: variable validation runs
first — `terraform plan` refuses the configuration before any provider
call when a validation condition fails (each variable carries its own
`error_message`, not modelled textually) — and with valid variables the
resource graph of ecs.tf is produced, the service receiving
`desired_count = var.desired_count` unchanged. -/
def plan (v : TerraformVars) : Except String PlannedResources :=
  if varsValid v then
    Except.ok
      { cluster_name := namePrefix v ++ "-cluster"
        log_group_name := "/ecs/" ++ namePrefix v
        secret_values :=
          [(namePrefix v ++ "-app-keys", v.app_keys),
           (namePrefix v ++ "-admin-jwt-secret", v.admin_jwt_secret),
           (namePrefix v ++ "-api-token-salt", v.api_token_salt),
           (namePrefix v ++ "-transfer-token-salt", v.transfer_token_salt)]
        taskDef :=
          { family := namePrefix v ++ "-task", cpu := v.task_cpu,
            memory := v.task_memory, image := v.docker_image, containerPort := 1337 }
        service :=
          { name := namePrefix v ++ "-service", desired_count := v.desired_count,
            launch_type := "FARGATE", assign_public_ip := true } }
  else Except.error "variable validation failed"

/-- The required-variables pre-check of `scripts/test-terraform-local.sh`
(the `MISSING_VARS` checks, lines 127-168): the five secret values must
be present and non-empty; an unset `docker_image` only produces a
warning there (Terraform itself rejects it). -/
def missingVars (v : TerraformVars) : List String :=
  (if v.app_keys = "" then ["app_keys"] else [])
    ++ (if v.admin_jwt_secret = "" then ["admin_jwt_secret"] else [])
    ++ (if v.jwt_secret = "" then ["jwt_secret"] else [])
    ++ (if v.api_token_salt = "" then ["api_token_salt"] else [])
    ++ (if v.transfer_token_salt = "" then ["transfer_token_salt"] else [])

/-- Exit status of the pre-check: the script exits 1 when any required
variable is missing, before running `terraform init`/`plan`. -/
def precheckExit (v : TerraformVars) : Nat :=
  if missingVars v = [] then 0 else 1

lemma varsValid_iff (v : TerraformVars) :
    varsValid v = true ↔
      (0 < v.docker_image.length ∧ 0 < v.app_keys.length
        ∧ 0 < v.admin_jwt_secret.length ∧ 0 < v.api_token_salt.length
        ∧ 0 < v.transfer_token_salt.length ∧ 0 < v.jwt_secret.length) := by
  simp [varsValid, Bool.and_eq_true, decide_eq_true_eq, and_assoc]

lemma missingVars_nil_iff (v : TerraformVars) :
    missingVars v = [] ↔
      (¬ v.app_keys = "" ∧ ¬ v.admin_jwt_secret = "" ∧ ¬ v.jwt_secret = ""
        ∧ ¬ v.api_token_salt = "" ∧ ¬ v.transfer_token_salt = "") := by
  simp [missingVars, List.append_eq_nil, ite_eq_right_iff]

end Terraform

/-- A deployment input identical to a valid one except that
`desired_count = 2`. -/
def specNotOne : Terraform.TerraformVars :=
  { aws_region := "us-east-1", app_name := "devops-strapi", environment := "production",
    docker_image := "user/devops-strapi:latest", app_keys := "k1,k2",
    admin_jwt_secret := "s1", api_token_salt := "s2", transfer_token_salt := "s3",
    jwt_secret := "s4", task_cpu := 512, task_memory := 1024, desired_count := 2 }

/-- Claim C1 counterexample: a spec with `desiredTaskCount = 2 ≠ 1` is
NOT rejected at validation — variables.tf has no validation block for
`desired_count` — and the planned ECS service receives
`desired_count = 2`, so a value other than 1 does reach the provider. -/
theorem desired_count_not_validated_cx :
    Terraform.varsValid specNotOne = true
    ∧ (Terraform.plan specNotOne).isOk = true
    ∧ (Terraform.plan specNotOne).toOption.map (fun r => r.service.desired_count) = some 2
    ∧ ¬ (specNotOne.desired_count = 1) := by
  decide

/-- Claim C1 (amended): validation ignores `desiredTaskCount` — changing
it never changes the validation verdict, and any spec that passes
validation hands its `desired_count` unchanged to the provider's ECS
service; the value is pinned to 1 only as the variable's default
(`desired_count_default = 1`), not by any check. -/
theorem desired_count_passthrough :
    ∀ (v : Terraform.TerraformVars) (n : Int),
      Terraform.varsValid { v with desired_count := n } = Terraform.varsValid v
      ∧ ((Terraform.plan v).isOk = true →
          (Terraform.plan v).toOption.map (fun r => r.service.desired_count)
            = some v.desired_count)
      ∧ Terraform.desired_count_default = 1 := by
  intro v n
  refine ⟨rfl, ?_, rfl⟩
  intro hok
  cases hv : Terraform.varsValid v with
  | false =>
      exfalso
      simp [Terraform.plan, hv, Except.isOk, Except.toBool] at hok
  | true =>
      simp [Terraform.plan, hv, Except.toOption]

theorem desired_count_passthrough_witness :
    Terraform.varsValid { specNotOne with desired_count := (5 : Int) }
        = Terraform.varsValid specNotOne
    ∧ (Terraform.plan specNotOne).toOption.map (fun r => r.service.desired_count)
        = some specNotOne.desired_count := by
  have h := desired_count_passthrough specNotOne 5
  exact ⟨h.1, h.2.1 (by decide)⟩

/-- A deployment input whose `app_keys` secret is empty. -/
def varsEmptySecret : Terraform.TerraformVars :=
  { aws_region := "us-east-1", app_name := "devops-strapi", environment := "production",
    docker_image := "user/devops-strapi:latest", app_keys := "",
    admin_jwt_secret := "s1", api_token_salt := "s2", transfer_token_salt := "s3",
    jwt_secret := "s4", task_cpu := 512, task_memory := 1024, desired_count := 1 }

/-- A fully populated deployment input. -/
def varsComplete : Terraform.TerraformVars :=
  { aws_region := "us-east-1", app_name := "devops-strapi", environment := "production",
    docker_image := "user/devops-strapi:latest", app_keys := "k1,k2",
    admin_jwt_secret := "s1", api_token_salt := "s2", transfer_token_salt := "s3",
    jwt_secret := "s4", task_cpu := 512, task_memory := 1024, desired_count := 1 }

/-- Claim C8: a reconciliation input with an empty required value (empty
image reference, or any empty secret among app_keys, admin_jwt_secret,
api_token_salt, transfer_token_salt) fails fatally at validation, before
any resource is planned — and the local pre-check script exits 1 on any
empty secret; with all validated values non-empty, validation passes and
planning produces the resource set. -/
theorem required_vars_validation :
    ∀ v : Terraform.TerraformVars,
      ((v.docker_image = "" ∨ v.app_keys = "" ∨ v.admin_jwt_secret = ""
          ∨ v.api_token_salt = "" ∨ v.transfer_token_salt = "") →
        Terraform.varsValid v = false
        ∧ Terraform.plan v = Except.error "variable validation failed")
      ∧ ((v.app_keys = "" ∨ v.admin_jwt_secret = "" ∨ v.api_token_salt = ""
          ∨ v.transfer_token_salt = "") →
        Terraform.precheckExit v = 1)
      ∧ ((0 < v.docker_image.length ∧ 0 < v.app_keys.length
          ∧ 0 < v.admin_jwt_secret.length ∧ 0 < v.api_token_salt.length
          ∧ 0 < v.transfer_token_salt.length ∧ 0 < v.jwt_secret.length) →
        Terraform.varsValid v = true ∧ (Terraform.plan v).isOk = true) := by
  intro v
  refine ⟨?_, ?_, ?_⟩
  · intro h
    have hval : Terraform.varsValid v = false := by
      cases hb : Terraform.varsValid v with
      | false => rfl
      | true =>
          exfalso
          have hc := (Terraform.varsValid_iff v).mp hb
          rcases h with h | h | h | h | h <;>
            · rw [h] at hc
              simp at hc
    exact ⟨hval, by simp [Terraform.plan, hval]⟩
  · intro h
    have hne : ¬ (Terraform.missingVars v = []) := by
      intro hnil
      have hc := (Terraform.missingVars_nil_iff v).mp hnil
      rcases h with h | h | h | h
      · exact hc.1 h
      · exact hc.2.1 h
      · exact hc.2.2.2.1 h
      · exact hc.2.2.2.2 h
    simp [Terraform.precheckExit, hne]
  · intro h
    have hval : Terraform.varsValid v = true := (Terraform.varsValid_iff v).mpr h
    exact ⟨hval, by simp [Terraform.plan, hval, Except.isOk, Except.toBool]⟩

theorem required_vars_validation_witness :
    (Terraform.varsValid varsEmptySecret = false
      ∧ Terraform.plan varsEmptySecret = Except.error "variable validation failed")
    ∧ Terraform.precheckExit varsEmptySecret = 1
    ∧ (Terraform.varsValid varsComplete = true
      ∧ (Terraform.plan varsComplete).isOk = true) := by
  refine ⟨(required_vars_validation varsEmptySecret).1 ?_,
          (required_vars_validation varsEmptySecret).2.1 ?_,
          (required_vars_validation varsComplete).2.2 ?_⟩
  · exact Or.inr (Or.inl rfl)
  · exact Or.inl rfl
  · decide

namespace Resolver

/-- Raw outputs of the read-only AWS CLI queries performed by the
`ecs_task_ip` external data script (`--output text` renders a missing
value as `None`; a failed command with stderr discarded yields the empty
string): the first task ARN of the service, the ENI id extracted from a
task's attachment details, and the public IP associated with an ENI. -/
structure AwsQueries where
  listTaskArn : String
  eniId : String → String
  publicIp : String → String

/-- The JSON object the script prints on stdout:
`{"public_ip": …, "status": …}`. -/
structure IpResult where
  public_ip : String
  status : String
deriving Repr, DecidableEq

/-- The bash program of `data "external" "ecs_task_ip"` in
`terraform/main.tf` lines 46-83.  It issues only read-only queries
(`aws ecs list-tasks`, `aws ecs describe-tasks`,
`aws ec2 describe-network-interfaces`), so the queried world `q` is
returned unchanged; the `Nat` component is the process exit status —
every early branch ends in `exit 0` and the final `echo` also exits 0. -/
def ecsTaskIpScript (q : AwsQueries) : IpResult × Nat × AwsQueries :=
  let taskArn := q.listTaskArn
  if taskArn = "" ∨ taskArn = "None" then (⟨"", "no_task_running"⟩, 0, q)
  else
    let eni := q.eniId taskArn
    if eni = "" then (⟨"", "eni_not_found"⟩, 0, q)
    else
      let ip := q.publicIp eni
      if ip = "" ∨ ip = "None" then (⟨"", "no_public_ip"⟩, 0, q)
      else (⟨ip, "success"⟩, 0, q)

/-- `output "task_public_ip"` from main.tf lines 85-88. -/
def task_public_ip (r : IpResult) : String :=
  if r.public_ip ≠ "" then r.public_ip
  else "Task not running or IP not available yet. Run \x27terraform refresh\x27 to update."

/-- `output "service_url"` from main.tf lines 90-93. -/
def service_url (r : IpResult) : String :=
  if r.public_ip ≠ "" then "http://" ++ r.public_ip ++ ":1337"
  else "Service not available yet. Run \x27terraform refresh\x27 to update."

end Resolver

/-- A world with zero running tasks: `list-tasks … --output text` prints
`None`. -/
def qNoTask : Resolver.AwsQueries := ⟨"None", fun _ => "", fun _ => ""⟩

/-- Claim C5: with zero running tasks the resolver returns the distinct
transient outcome `no_task_running` with empty `public_ip`, exits 0
rather than failing, and mutates nothing — the queried world is
unchanged and repeated invocation yields the same result; the three
not-ready statuses and `success` are pairwise distinct strings. -/
theorem resolver_no_task_running :
    ∀ q : Resolver.AwsQueries,
      (q.listTaskArn = "" ∨ q.listTaskArn = "None") →
      (Resolver.ecsTaskIpScript q).1 = ⟨"", "no_task_running"⟩
      ∧ (Resolver.ecsTaskIpScript q).2.1 = 0
      ∧ (Resolver.ecsTaskIpScript q).2.2 = q
      ∧ Resolver.ecsTaskIpScript ((Resolver.ecsTaskIpScript q).2.2)
          = Resolver.ecsTaskIpScript q
      ∧ (("no_task_running" : String) ≠ "eni_not_found"
          ∧ ("no_task_running" : String) ≠ "no_public_ip"
          ∧ ("eni_not_found" : String) ≠ "no_public_ip"
          ∧ ("no_task_running" : String) ≠ "success"
          ∧ ("eni_not_found" : String) ≠ "success"
          ∧ ("no_public_ip" : String) ≠ "success") := by
  intro q h
  have h1 : Resolver.ecsTaskIpScript q = (⟨"", "no_task_running"⟩, 0, q) := by
    simp only [Resolver.ecsTaskIpScript]
    rw [if_pos h]
  refine ⟨by rw [h1], by rw [h1], by rw [h1], by rw [h1]; exact h1, by decide⟩

theorem resolver_no_task_running_witness :
    (Resolver.ecsTaskIpScript qNoTask).1 = ⟨"", "no_task_running"⟩
    ∧ (Resolver.ecsTaskIpScript qNoTask).2.1 = 0 := by
  have h := resolver_no_task_running qNoTask (Or.inr rfl)
  exact ⟨h.1, h.2.1⟩

/-- Claim C10: the resolver always exits 0 — in all three not-ready
cases and on success — every outcome is one of the four status strings
with a possibly empty `public_ip`, and the derived Terraform outputs
degrade to human-readable placeholders rather than failing when
`public_ip` is empty (producing the IP and the service URL when it is
not). -/
theorem resolver_always_exit_zero :
    ∀ q : Resolver.AwsQueries,
      (Resolver.ecsTaskIpScript q).2.1 = 0
      ∧ ((Resolver.ecsTaskIpScript q).1.status = "no_task_running"
          ∨ (Resolver.ecsTaskIpScript q).1.status = "eni_not_found"
          ∨ (Resolver.ecsTaskIpScript q).1.status = "no_public_ip"
          ∨ (Resolver.ecsTaskIpScript q).1.status = "success")
      ∧ ((Resolver.ecsTaskIpScript q).1.public_ip = "" →
          Resolver.task_public_ip (Resolver.ecsTaskIpScript q).1
            = "Task not running or IP not available yet. Run \x27terraform refresh\x27 to update."
          ∧ Resolver.service_url (Resolver.ecsTaskIpScript q).1
            = "Service not available yet. Run \x27terraform refresh\x27 to update.")
      ∧ ((Resolver.ecsTaskIpScript q).1.public_ip ≠ "" →
          Resolver.task_public_ip (Resolver.ecsTaskIpScript q).1
            = (Resolver.ecsTaskIpScript q).1.public_ip
          ∧ Resolver.service_url (Resolver.ecsTaskIpScript q).1
            = "http://" ++ (Resolver.ecsTaskIpScript q).1.public_ip ++ ":1337") := by
  intro q
  refine ⟨?_, ?_, ?_, ?_⟩
  · simp only [Resolver.ecsTaskIpScript]
    split_ifs <;> rfl
  · simp only [Resolver.ecsTaskIpScript]
    split_ifs <;> simp
  · intro hip
    constructor <;> simp [Resolver.task_public_ip, Resolver.service_url, hip]
  · intro hip
    constructor <;> simp [Resolver.task_public_ip, Resolver.service_url, hip]

theorem resolver_always_exit_zero_witness :
    (Resolver.ecsTaskIpScript qNoTask).2.1 = 0
    ∧ Resolver.task_public_ip (Resolver.ecsTaskIpScript qNoTask).1
        = "Task not running or IP not available yet. Run \x27terraform refresh\x27 to update."
    ∧ Resolver.service_url (Resolver.ecsTaskIpScript qNoTask).1
        = "Service not available yet. Run \x27terraform refresh\x27 to update." := by
  have h := resolver_always_exit_zero qNoTask
  have h3 := h.2.2.1 (by decide)
  exact ⟨h.1, h3.1, h3.2⟩

namespace Gate

/-- Outcome of one scenario within a verification run. -/
inductive ScenarioOutcome where
  | PASS
  | FAIL
deriving Repr, DecidableEq

/-- Overall outcome of a verification run. -/
inductive RunOutcome where
  | PASSED
  | FAILED
deriving Repr, DecidableEq

/-- One test scenario: its declared name and whether its assertions hold
against the target. -/
structure Scenario where
  name : String
  assertionsHold : Bool
deriving Repr, DecidableEq

/-- One execution of the release gate: an ordered outcome per scenario
and the overall verdict. -/
structure VerificationRun where
  results : List (String × ScenarioOutcome)
  overall : RunOutcome
deriving Repr, DecidableEq

/-- Modelled from the spec: the scenario loop of the release gate
(`runGate`) is missing from the repository sources — it lives in the
external Playwright test runner, which the repository only configures
(`playwrightConfig` below) and feeds with the scenarios of
article.spec.ts / author.spec.ts.  Per the spec, the runner executes the
suite sequentially in declared order, records an outcome for every
scenario whether or not earlier ones failed (failures are collected, not
short-circuiting), and the overall verdict is PASSED iff every
scenario's assertions hold. -/
def runGateGo : List Scenario → List (String × ScenarioOutcome) → Bool → VerificationRun
  | [], acc, anyFailed =>
      ⟨acc.reverse, if anyFailed then RunOutcome.FAILED else RunOutcome.PASSED⟩
  | s :: rest, acc, anyFailed =>
      runGateGo rest
        ((s.name, if s.assertionsHold then ScenarioOutcome.PASS else ScenarioOutcome.FAIL) :: acc)
        (anyFailed || !s.assertionsHold)

/-- Modelled from the spec: run the release gate over a suite. -/
def runGate (suite : List Scenario) : VerificationRun := runGateGo suite [] false

lemma runGateGo_spec :
    ∀ (suite : List Scenario) (acc : List (String × ScenarioOutcome)) (anyFailed : Bool),
      runGateGo suite acc anyFailed =
        ⟨acc.reverse ++ suite.map (fun s =>
            (s.name, if s.assertionsHold then ScenarioOutcome.PASS else ScenarioOutcome.FAIL)),
         if anyFailed || suite.any (fun s => !s.assertionsHold)
           then RunOutcome.FAILED else RunOutcome.PASSED⟩ := by
  intro suite
  induction suite with
  | nil =>
      intro acc b
      simp [runGateGo]
  | cons s rest ih =>
      intro acc b
      rw [runGateGo, ih]
      simp [List.reverse_cons, List.append_assoc, Bool.or_assoc]

lemma runGate_spec (suite : List Scenario) :
    runGate suite =
      ⟨suite.map (fun s =>
          (s.name, if s.assertionsHold then ScenarioOutcome.PASS else ScenarioOutcome.FAIL)),
       if suite.any (fun s => !s.assertionsHold)
         then RunOutcome.FAILED else RunOutcome.PASSED⟩ := by
  rw [runGate, runGateGo_spec]
  simp

/-- Playwright runner configuration from `playwright.config.ts`:
sequential scenarios, a single worker, retries only on CI, html
reporter. -/
structure PlaywrightConfig where
  testDir : String
  fullyParallel : Bool
  forbidOnlyOnCI : Bool
  retriesOnCI : Nat
  retriesLocal : Nat
  workers : Nat
  reporter : String
deriving Repr, DecidableEq

/-- The values set in `playwright.config.ts`: `fullyParallel: false`
("Run tests sequentially to avoid rate limiting") and `workers: 1`
("Use single worker to avoid parallel requests hitting rate limits"). -/
def playwrightConfig : PlaywrightConfig :=
  { testDir := "./tests/e2e", fullyParallel := false, forbidOnlyOnCI := true,
    retriesOnCI := 2, retriesLocal := 0, workers := 1, reporter := "html" }

/-- The `strapi::security` middleware configuration from
`config/middlewares.ts`: content security policy with defaults, and
`rateLimit: false` — "Disable rate limiting completely for
development/testing". -/
structure SecurityMiddlewareConfig where
  cspUseDefaults : Bool
  rateLimit : Bool
deriving Repr, DecidableEq

/-- The configured security middleware of `config/middlewares.ts`. -/
def securityMiddleware : SecurityMiddlewareConfig :=
  { cspUseDefaults := true, rateLimit := false }

/-- The middleware stack order from `config/middlewares.ts`. -/
def middlewareNames : List String :=
  ["strapi::logger", "strapi::errors", "strapi::security", "strapi::cors",
   "strapi::poweredBy", "strapi::query", "strapi::body", "strapi::session",
   "strapi::favicon", "strapi::public"]

end Gate

/-- Claim C6: a run over a suite containing a failing scenario S1 and a
passing scenario S2 records an outcome for both (an assertion failure
does not stop remaining scenarios) and ends FAILED; and in general the
overall outcome is PASSED iff every scenario's assertions hold, with one
recorded outcome per scenario. -/
theorem runGate_non_short_circuit :
    (∀ (suite : List Gate.Scenario) (s1 s2 : Gate.Scenario),
        s1 ∈ suite → s2 ∈ suite → s1.assertionsHold = false → s2.assertionsHold = true →
        (s1.name, Gate.ScenarioOutcome.FAIL) ∈ (Gate.runGate suite).results
        ∧ (s2.name, Gate.ScenarioOutcome.PASS) ∈ (Gate.runGate suite).results
        ∧ (Gate.runGate suite).overall = Gate.RunOutcome.FAILED)
    ∧ (∀ suite : List Gate.Scenario,
        (Gate.runGate suite).results.length = suite.length
        ∧ ((Gate.runGate suite).overall = Gate.RunOutcome.PASSED
            ↔ ∀ s ∈ suite, s.assertionsHold = true)) := by
  constructor
  · intro suite s1 s2 h1 h2 hf ht
    refine ⟨?_, ?_, ?_⟩
    · rw [Gate.runGate_spec]
      simp only [List.mem_map]
      exact ⟨s1, h1, by simp [hf]⟩
    · rw [Gate.runGate_spec]
      simp only [List.mem_map]
      exact ⟨s2, h2, by simp [ht]⟩
    · rw [Gate.runGate_spec]
      have hany : suite.any (fun s => !s.assertionsHold) = true :=
        List.any_eq_true.mpr ⟨s1, h1, by simp [hf]⟩
      simp [hany]
  · intro suite
    constructor
    · rw [Gate.runGate_spec]
      simp
    · rw [Gate.runGate_spec]
      by_cases h : suite.any (fun s => !s.assertionsHold) = true
      · simp only [h, if_true]
        constructor
        · intro hx
          exact absurd hx (by decide)
        · intro hall
          exfalso
          obtain ⟨s, hs, hh⟩ := List.any_eq_true.mp h
          have := hall s hs
          simp [this] at hh
      · have h' : suite.any (fun s => !s.assertionsHold) = false :=
          Bool.not_eq_true _ |>.mp h
        simp only [h', Bool.false_eq_true, if_false]
        constructor
        · intro _ s hs
          have := List.any_eq_false.mp h' s hs
          simpa using this
        · intro _
          trivial

/-- The article suite of the demo variant of article.spec.ts, whose last
scenario fails intentionally (`expect(data.data.length).toBe(-1)`). -/
def articleSuiteDemo : List Gate.Scenario :=
  [⟨"should login successfully", true⟩,
   ⟨"should create a new article", true⟩,
   ⟨"should list articles", true⟩,
   ⟨"should read a specific article", true⟩,
   ⟨"should update an article", true⟩,
   ⟨"should delete an article", true⟩,
   ⟨"should fail intentionally for PR demonstration", false⟩]

theorem runGate_non_short_circuit_witness :
    ((("should fail intentionally for PR demonstration" : String), Gate.ScenarioOutcome.FAIL)
        ∈ (Gate.runGate articleSuiteDemo).results)
    ∧ ((("should login successfully" : String), Gate.ScenarioOutcome.PASS)
        ∈ (Gate.runGate articleSuiteDemo).results)
    ∧ (Gate.runGate articleSuiteDemo).overall = Gate.RunOutcome.FAILED :=
  runGate_non_short_circuit.1 articleSuiteDemo
    ⟨"should fail intentionally for PR demonstration", false⟩
    ⟨"should login successfully", true⟩ (by decide) (by decide) rfl rfl

/-- Claim C7 counterexample: the claim asserts that the application under
test enforces request-rate limits on its HTTP surface, but
`config/middlewares.ts` sets `rateLimit: false` on the security
middleware, explicitly disabling rate limiting — so the claimed
conjunction fails on its first conjunct even though the gate really is
sequential and single-worker. -/
theorem rate_limit_enforced_cx :
    ¬ (Gate.securityMiddleware.rateLimit = true
        ∧ Gate.playwrightConfig.fullyParallel = false
        ∧ Gate.playwrightConfig.workers = 1) := by
  decide

/-- Claim C7 (amended): the release gate executes scenarios sequentially
with a single worker (`fullyParallel = false`, `workers = 1`), but the
application's own middleware configuration disables rate limiting
(`rateLimit: false`): the sequential setting guards against rate limits
of a deployed target, not one enforced by this repository's
configuration. -/
theorem gate_sequential_config :
    Gate.playwrightConfig.fullyParallel = false
    ∧ Gate.playwrightConfig.workers = 1
    ∧ Gate.securityMiddleware.rateLimit = false
    ∧ "strapi::security" ∈ Gate.middlewareNames := by
  decide
